import Mathlib

/-!
Verification of the room-based WebRTC signaling relay server
(`src/signaling_server.py`) against its natural-language specification.

The server keeps a process-wide registry
`rooms : Dict[str, Dict[str, WebSocket]]` mapping a room id to an
insertion-ordered dictionary from user id to connection handle, guarded by a
single asyncio lock.  We embed Python dicts as association lists (insertion
ordered, first matching key wins, assignment replaces in place), connection
handles as opaque numeric identifiers, and each operation of the server as a
pure function that returns the updated registry together with a trace of
observable events (lock acquire/release, text/binary sends, closes), so that
locking discipline and delivery sets can be stated and checked.
-/

namespace Signaling

/-- A connection handle (`WebSocket` object identity in the source). -/
abbrev WS := Nat

/-- One room's members: the Python dict `{ user_id: WebSocket, ... }`
as an insertion-ordered association list. -/
abbrev Room := List (String × WS)

/-- The registry: `rooms = { room_id: { user_id: WebSocket, ... }, ... }`
(src/signaling_server.py line 28). -/
abbrev Registry := List (String × Room)

/-- Python dict lookup `d.get(k)` / `k in d` on the association-list embedding. -/
def dlookup {β : Type} (k : String) : List (String × β) → Option β
  | [] => none
  | (k₁, v) :: rest => if k₁ = k then some v else dlookup k rest

/-- Python dict assignment `d[k] = v`: replaces the value in place when the key
is present (keeping its position), otherwise appends the new entry. -/
def dinsert {β : Type} (k : String) (v : β) : List (String × β) → List (String × β)
  | [] => [(k, v)]
  | (k₁, v₁) :: rest => if k₁ = k then (k, v) :: rest else (k₁, v₁) :: dinsert k v rest

/-- Python dict deletion `del d[k]` (callers guard with `k in d`). -/
def derase {β : Type} (k : String) : List (String × β) → List (String × β)
  | [] => []
  | (k₁, v₁) :: rest => if k₁ = k then rest else (k₁, v₁) :: derase k rest

/-- `MAX_BINARY_SIZE = 5 * 1024 * 1024` (line 31). -/
def MAX_BINARY_SIZE : Nat := 5 * 1024 * 1024

/-- `MAX_PARTICIPANTS_PER_ROOM = 10` (line 32). -/
def MAX_PARTICIPANTS_PER_ROOM : Nat := 10

/-- A parsed JSON text envelope.  Field `etype` is the JSON key `"type"`,
`eto` is `"to"`, `efrom` is `"from"` (each `none` when the key is absent);
`payload` stands for the remaining opaque content of the JSON object. -/
structure Envelope where
  etype : Option String
  eto : Option String
  efrom : Option String
  payload : String
  deriving DecidableEq

/-- An outbound text message: either a forwarded envelope (`send_text` of the
re-serialized client JSON) or a server-generated
`{"type": "error", "payload": {"message": ...}}` envelope. -/
inductive OutMsg where
  | fwd (e : Envelope)
  | err (message : String)
  deriving DecidableEq

/-- An observable event of one server operation: acquiring/releasing
`rooms_lock`, a `send_text`, a `send_bytes` (binary payload abstracted by its
length), or a `close` with a close code. -/
inductive Event where
  | acquire
  | release
  | sendText (ws : WS) (m : OutMsg)
  | sendBinary (ws : WS) (size : Nat)
  | close (ws : WS) (code : Nat)
  deriving DecidableEq

/-- REST endpoint `POST /create_room` (lines 38-44): under the lock,
`rooms.setdefault(room_id, {})`.  The random 12-hex-char room id generated by
`uuid.uuid4().hex[:12]` is taken as a parameter. -/
def create_room (rooms : Registry) (room_id : String) : Registry :=
  match dlookup room_id rooms with
  | some _ => rooms
  | none => dinsert room_id [] rooms

/-- The join block of `websocket_endpoint` (lines 74-83): under the lock,
create the room if missing, reject with `close(code=1008)` when the room
already holds `MAX_PARTICIPANTS_PER_ROOM` members, otherwise register
`rooms[room_id][user_id] = websocket`.  Returns the updated registry, the
event trace, and whether the connection was registered. -/
def wsJoin (rooms : Registry) (room_id user_id : String) (ws : WS) :
    Registry × List Event × Bool :=
  let rooms₁ := match dlookup room_id rooms with
    | none => dinsert room_id [] rooms
    | some _ => rooms
  let room := (dlookup room_id rooms₁).getD []
  if room.length ≥ MAX_PARTICIPANTS_PER_ROOM then
    (rooms₁, [Event.acquire, Event.close ws 1008, Event.release], false)
  else
    (dinsert room_id (dinsert user_id ws room) rooms₁, [Event.acquire, Event.release], true)

/-- The cleanup block of `websocket_endpoint` (`finally`, lines 135-150):
under the lock, delete the user's entry if present and delete the room if it
became empty; after releasing the lock, close the websocket (default close
code 1000). -/
def wsCleanup (rooms : Registry) (room_id user_id : String) (ws : WS) :
    Registry × List Event :=
  let rooms₁ := match dlookup room_id rooms with
    | none => rooms
    | some room =>
      match dlookup user_id room with
      | some _ => dinsert room_id (derase user_id room) rooms
      | none => rooms
  let rooms₂ := match dlookup room_id rooms₁ with
    | some room => if room.isEmpty then derase room_id rooms₁ else rooms₁
    | none => rooms₁
  (rooms₂, [Event.acquire, Event.release, Event.close ws 1000])

/-- `forward_text(room_id, from_user, to, data)` (lines 152-185): under the
lock, resolve recipients; `to == "all"` selects every member except the
sender, otherwise the single named member if present — when the target is
absent, the error reply to the sender is sent while the lock is still held
and nothing is forwarded.  The forwarded sends themselves happen after the
lock is released.  The registry is only read, never modified. -/
def forward_text (rooms : Registry) (from_user tgt : String) (room_id : String)
    (data : Envelope) : List Event :=
  match dlookup room_id rooms with
  | none => [Event.acquire, Event.release]
  | some room =>
    if tgt = "all" then
      [Event.acquire, Event.release] ++
        (room.filter (fun p => p.1 ≠ from_user)).map
          (fun p => Event.sendText p.2 (OutMsg.fwd data))
    else
      match dlookup tgt room with
      | some ws => [Event.acquire, Event.release, Event.sendText ws (OutMsg.fwd data)]
      | none =>
        match dlookup from_user room with
        | some sender_ws =>
          [Event.acquire,
           Event.sendText sender_ws (OutMsg.err ("target " ++ tgt ++ " not found")),
           Event.release]
        | none => [Event.acquire, Event.release]

/-- `forward_binary(room_id, from_user, binary_data)` (lines 187-198): under
the lock, snapshot every member except the sender; send the bytes to each
after releasing the lock. -/
def forward_binary (rooms : Registry) (from_user : String) (room_id : String)
    (size : Nat) : List Event :=
  match dlookup room_id rooms with
  | none => [Event.acquire, Event.release]
  | some room =>
    [Event.acquire, Event.release] ++
      (room.filter (fun p => p.1 ≠ from_user)).map
        (fun p => Event.sendBinary p.2 size)

/-- The `data.setdefault("from", user_id)` step (line 100): sets `"from"` to
the sender's user id only when the client did not supply one; a
client-supplied value is kept. -/
def attachSender (user_id : String) (e : Envelope) : Envelope :=
  { e with efrom := some (e.efrom.getD user_id) }

/-- The text-frame branch of the session loop (lines 90-106): `none` stands
for invalid JSON (dropped, no events); otherwise attach the sender, default
`to` to `"all"`, and forward. -/
def handleText (rooms : Registry) (room_id user_id : String)
    (parsed : Option Envelope) : List Event :=
  match parsed with
  | none => []
  | some data₀ =>
    let data := attachSender user_id data₀
    let tgt := data.eto.getD "all"
    forward_text rooms user_id tgt room_id data

/-- The binary-frame branch of the session loop (lines 109-125): frames
larger than `MAX_BINARY_SIZE` are answered with an error envelope to the
sender and dropped (`continue`); otherwise forwarded.  The returned `Bool`
is `true` when the loop continues with the connection open. -/
def handleBinary (rooms : Registry) (room_id user_id : String) (ws : WS)
    (size : Nat) : List Event × Bool :=
  if size > MAX_BINARY_SIZE then
    ([Event.sendText ws (OutMsg.err "binary frame too large")], true)
  else
    (forward_binary rooms user_id room_id size, true)

/-- The events of a trace that occur while `rooms_lock` is held, scanning
with the lock state given by the first argument. -/
def heldEvents : Bool → List Event → List Event
  | _, [] => []
  | _, Event.acquire :: rest => heldEvents true rest
  | _, Event.release :: rest => heldEvents false rest
  | held, e :: rest => if held then e :: heldEvents held rest else heldEvents held rest

/-- The I/O events (sends, closes) a trace performs under the lock. -/
def underLock (tr : List Event) : List Event :=
  heldEvents false tr

/-- The forwarded-envelope deliveries of a trace: which handle received which
envelope, in order. -/
def textDeliveries : List Event → List (WS × Envelope)
  | [] => []
  | Event.sendText ws (OutMsg.fwd e) :: rest => (ws, e) :: textDeliveries rest
  | _ :: rest => textDeliveries rest

/-- The server-generated error sends of a trace: recipient handle and the
`payload.message` string. -/
def errSends : List Event → List (WS × String)
  | [] => []
  | Event.sendText ws (OutMsg.err m) :: rest => (ws, m) :: errSends rest
  | _ :: rest => errSends rest

/-- The binary deliveries of a trace: recipient handle and frame size. -/
def binDeliveries : List Event → List (WS × Nat)
  | [] => []
  | Event.sendBinary ws n :: rest => (ws, n) :: binDeliveries rest
  | _ :: rest => binDeliveries rest

/-- Whether an event is a `send_text`. -/
def isSendTextB : Event → Bool
  | Event.sendText _ _ => true
  | _ => false

/-- Whether an event is a server-generated error send. -/
def isErrSendB : Event → Bool
  | Event.sendText _ (OutMsg.err _) => true
  | _ => false

/-- Whether an event is a `close`. -/
def isCloseB : Event → Bool
  | Event.close _ _ => true
  | _ => false

/-- The registry invariant claimed by the spec: no room with zero members. -/
def noEmptyRoom (rooms : Registry) : Bool :=
  rooms.all (fun p => !p.2.isEmpty)


/-! ### Association-list lemmas (Python dict semantics) -/

/-- Assignment never produces an empty dict. -/
theorem dinsert_ne_nil {β : Type} (k : String) (v : β) (l : List (String × β)) :
    dinsert k v l ≠ [] := by
  cases l with
  | nil => simp [dinsert]
  | cons a rest =>
    obtain ⟨k₁, v₁⟩ := a
    simp only [dinsert]
    split <;> simp

/-- Looking up a key just assigned yields the assigned value. -/
theorem dlookup_dinsert_self {β : Type} (k : String) (v : β) (l : List (String × β)) :
    dlookup k (dinsert k v l) = some v := by
  induction l with
  | nil => simp [dinsert, dlookup]
  | cons a rest ih =>
    obtain ⟨k₁, v₁⟩ := a
    by_cases h : k₁ = k
    · simp [dinsert, dlookup, h]
    · simp [dinsert, dlookup, h, ih]

/-- Assigning to a key that is already present keeps the dict's size. -/
theorem length_dinsert_of_lookup {β : Type} (k : String) (v v₀ : β)
    (l : List (String × β)) (h : dlookup k l = some v₀) :
    (dinsert k v l).length = l.length := by
  induction l with
  | nil => simp [dlookup] at h
  | cons a rest ih =>
    obtain ⟨k₁, v₁⟩ := a
    by_cases hk : k₁ = k
    · simp [dinsert, hk]
    · simp only [dlookup, if_neg hk] at h
      simp [dinsert, hk, ih h]

/-- Re-assigning the same key twice keeps only the second assignment. -/
theorem dinsert_dinsert {β : Type} (k : String) (v v₁ : β) (l : List (String × β)) :
    dinsert k v (dinsert k v₁ l) = dinsert k v l := by
  induction l with
  | nil => simp [dinsert]
  | cons a rest ih =>
    obtain ⟨k₁, w⟩ := a
    by_cases h : k₁ = k
    · simp [dinsert, h]
    · simp [dinsert, h, ih]

/-- Deleting a key right after assigning it is deleting it from the original. -/
theorem derase_dinsert {β : Type} (k : String) (v : β) (l : List (String × β)) :
    derase k (dinsert k v l) = derase k l := by
  induction l with
  | nil => simp [dinsert, derase]
  | cons a rest ih =>
    obtain ⟨k₁, v₁⟩ := a
    by_cases h : k₁ = k
    · simp [dinsert, derase, h]
    · simp [dinsert, derase, h, ih]

/-- Every entry of `dinsert k v l` is an old entry or the new binding. -/
theorem mem_dinsert {β : Type} (k : String) (v : β) (l : List (String × β))
    (x : String × β) (hx : x ∈ dinsert k v l) : x ∈ l ∨ x = (k, v) := by
  induction l with
  | nil =>
    simp [dinsert] at hx
    simp [hx]
  | cons a rest ih =>
    obtain ⟨k₁, v₁⟩ := a
    by_cases h : k₁ = k
    · simp [dinsert, h] at hx
      rcases hx with hx | hx
      · right; simp [hx]
      · left; simp [hx]
    · simp [dinsert, h] at hx
      rcases hx with hx | hx
      · left; simp [hx]
      · rcases ih hx with h₁ | h₁
        · left; simp [h₁]
        · right; exact h₁

/-- Deletion only removes entries. -/
theorem mem_derase {β : Type} (k : String) (l : List (String × β))
    (x : String × β) (hx : x ∈ derase k l) : x ∈ l := by
  induction l with
  | nil => simp [derase] at hx
  | cons a rest ih =>
    obtain ⟨k₁, v₁⟩ := a
    by_cases h : k₁ = k
    · simp [derase, h] at hx
      simp [hx]
    · simp [derase, h] at hx
      rcases hx with hx | hx
      · simp [hx]
      · simp [ih hx]

/-- A successful lookup exhibits a member of the dict. -/
theorem dlookup_mem {β : Type} (k : String) (v : β) :
    ∀ l : List (String × β), dlookup k l = some v → (k, v) ∈ l := by
  intro l
  induction l with
  | nil => intro h; simp [dlookup] at h
  | cons a rest ih =>
    obtain ⟨k₁, v₁⟩ := a
    intro h
    by_cases hk : k₁ = k
    · simp only [dlookup, if_pos hk] at h
      subst hk
      simp only [Option.some.injEq] at h
      simp [h]
    · simp only [dlookup, if_neg hk] at h
      simp [ih h]

/-! ### The no-empty-room invariant -/

/-- `noEmptyRoom` unfolded to a membership statement. -/
theorem noEmptyRoom_iff (rooms : Registry) :
    noEmptyRoom rooms = true ↔ ∀ p ∈ rooms, p.2 ≠ [] := by
  simp [noEmptyRoom, List.all_eq_true, List.isEmpty_iff]

/-- Inserting a nonempty room preserves the invariant. -/
theorem noEmptyRoom_dinsert (rooms : Registry) (rid : String) (r : Room)
    (h : noEmptyRoom rooms = true) (hr : r ≠ []) :
    noEmptyRoom (dinsert rid r rooms) = true := by
  rw [noEmptyRoom_iff] at h ⊢
  intro p hp
  rcases mem_dinsert _ _ _ _ hp with h₁ | h₁
  · exact h p h₁
  · rw [h₁]; exact hr

/-- Removing a room preserves the invariant. -/
theorem noEmptyRoom_derase (rooms : Registry) (k : String)
    (h : noEmptyRoom rooms = true) : noEmptyRoom (derase k rooms) = true := by
  rw [noEmptyRoom_iff] at h ⊢
  intro p hp
  exact h p (mem_derase _ _ _ hp)

/-- Under the invariant, every room found in the registry is nonempty. -/
theorem noEmptyRoom_lookup (rooms : Registry) (k : String) (r : Room)
    (h : noEmptyRoom rooms = true) (hk : dlookup k rooms = some r) : r ≠ [] :=
  (noEmptyRoom_iff rooms).mp h (k, r) (dlookup_mem _ _ _ hk)


/-! ### Trace lemmas -/

/-- A trace containing no lock acquisition performs nothing under the lock
(when the lock starts released). -/
theorem heldEvents_false_of_no_acquire (l : List Event)
    (h : Event.acquire ∉ l) : heldEvents false l = [] := by
  induction l with
  | nil => rfl
  | cons e rest ih =>
    have h₂ : Event.acquire ∉ rest := fun hm => h (List.mem_cons_of_mem _ hm)
    cases e with
    | acquire => exact absurd (List.mem_cons_self _ _) h
    | release => simpa [heldEvents] using ih h₂
    | sendText ws m => simpa [heldEvents] using ih h₂
    | sendBinary ws n => simpa [heldEvents] using ih h₂
    | close ws c => simpa [heldEvents] using ih h₂

/-- Deliveries of a batch of forwarded sends, one per snapshot entry. -/
theorem textDeliveries_map_sendFwd (l : List (String × WS)) (d : Envelope) :
    textDeliveries (l.map (fun p => Event.sendText p.2 (OutMsg.fwd d))) =
      l.map (fun p => (p.2, d)) := by
  induction l with
  | nil => rfl
  | cons a rest ih => simp [textDeliveries, ih]

/-- A batch of forwarded sends contains no error sends. -/
theorem errSends_map_sendFwd (l : List (String × WS)) (d : Envelope) :
    errSends (l.map (fun p => Event.sendText p.2 (OutMsg.fwd d))) = [] := by
  induction l with
  | nil => rfl
  | cons a rest ih => simp [errSends, ih]

/-- A batch of binary sends, one per snapshot entry. -/
theorem binDeliveries_map_sendBinary (l : List (String × WS)) (n : Nat) :
    binDeliveries (l.map (fun p => Event.sendBinary p.2 n)) =
      l.map (fun p => (p.2, n)) := by
  induction l with
  | nil => rfl
  | cons a rest ih => simp [binDeliveries, ih]

/-- Every envelope `forward_text` delivers is exactly the envelope it was
asked to forward (the server relays it untouched). -/
theorem forward_text_env (rooms : Registry) (uid tgt rid : String) (d : Envelope) :
    ∀ x ∈ textDeliveries (forward_text rooms uid tgt rid d), x.2 = d := by
  intro x hx
  cases hR : dlookup rid rooms with
  | none => simp [forward_text, hR, textDeliveries] at hx
  | some room =>
    by_cases ht : tgt = "all"
    · simp only [forward_text, hR, if_pos ht, List.cons_append, List.nil_append,
        textDeliveries, textDeliveries_map_sendFwd, List.mem_map] at hx
      obtain ⟨p, _, hp⟩ := hx
      rw [← hp]
    · cases hT : dlookup tgt room with
      | some w =>
        simp only [forward_text, hR, if_neg ht, hT] at hx
        simp [textDeliveries] at hx
        simp [hx]
      | none =>
        cases hU : dlookup uid room with
        | some s =>
          simp only [forward_text, hR, if_neg ht, hT, hU] at hx
          simp [textDeliveries] at hx
        | none =>
          simp only [forward_text, hR, if_neg ht, hT, hU] at hx
          simp [textDeliveries] at hx

/-! ### Invariant preservation of the mutating operations -/

/-- The websocket join block preserves the no-empty-room invariant: a room it
creates receives its first member in the same critical section, and a full
room is left unchanged. -/
theorem noEmptyRoom_wsJoin (rooms : Registry) (rid uid : String) (ws : WS)
    (h : noEmptyRoom rooms = true) :
    noEmptyRoom (wsJoin rooms rid uid ws).1 = true := by
  cases hR : dlookup rid rooms with
  | none =>
    have hl : dlookup rid (dinsert rid ([] : Room) rooms) = some [] :=
      dlookup_dinsert_self _ _ _
    simp only [wsJoin, hR, hl, Option.getD_some, List.length_nil,
      MAX_PARTICIPANTS_PER_ROOM]
    simp only [show ¬ (0 ≥ 10) by decide, if_false]
    rw [dinsert_dinsert]
    exact noEmptyRoom_dinsert _ _ _ h (dinsert_ne_nil _ _ _)
  | some R =>
    by_cases hlen : R.length ≥ MAX_PARTICIPANTS_PER_ROOM
    · simp [wsJoin, hR, hlen, h]
    · simp only [wsJoin, hR, Option.getD_some, if_neg hlen]
      exact noEmptyRoom_dinsert _ _ _ h (dinsert_ne_nil _ _ _)

/-- The cleanup block preserves the no-empty-room invariant: if removing the
member empties the room, the room itself is deleted in the same critical
section. -/
theorem noEmptyRoom_wsCleanup (rooms : Registry) (rid uid : String) (ws : WS)
    (h : noEmptyRoom rooms = true) :
    noEmptyRoom (wsCleanup rooms rid uid ws).1 = true := by
  cases hR : dlookup rid rooms with
  | none => simp [wsCleanup, hR, h]
  | some R =>
    cases hU : dlookup uid R with
    | none =>
      have hne : R ≠ [] := noEmptyRoom_lookup _ _ _ h hR
      have hE : R.isEmpty = false := by
        cases R with
        | nil => exact absurd rfl hne
        | cons a l => rfl
      simp [wsCleanup, hR, hU, hE, h]
    | some w =>
      have hl : dlookup rid (dinsert rid (derase uid R) rooms) = some (derase uid R) :=
        dlookup_dinsert_self _ _ _
      by_cases hE : (derase uid R).isEmpty
      · simp only [wsCleanup, hR, hU, hl, hE, if_true]
        rw [derase_dinsert]
        exact noEmptyRoom_derase _ _ h
      · simp only [wsCleanup, hR, hU, hl, Bool.not_eq_true] at hE ⊢
        simp only [hE, if_false]
        apply noEmptyRoom_dinsert _ _ _ h
        intro hnil
        rw [hnil] at hE
        simp at hE


/-! ### Concrete fixtures -/

/-- A registry with one room `ABC123` holding alice (handle 1) and bob
(handle 2). -/
def exRooms : Registry := [("ABC123", [("alice", 1), ("bob", 2)])]

/-- A room at the participant cap whose first member is alice. -/
def fullRoom : Room :=
  [("alice", 1), ("u2", 2), ("u3", 3), ("u4", 4), ("u5", 5),
   ("u6", 6), ("u7", 7), ("u8", 8), ("u9", 9), ("u10", 10)]

/-- A registry with one full room `R`. -/
def fullRoomReg : Registry := [("R", fullRoom)]

/-- A registry with one room `ABC123` holding only alice (handle 1). -/
def aliceOnly : Registry := [("ABC123", [("alice", 1)])]

/-- An envelope whose client supplied a spoofed `"from"` value. -/
def spoofEnv : Envelope := ⟨some "message", some "all", some "mallory", "hi"⟩

/-- An envelope targeted at bob. -/
def targetedEnv : Envelope := ⟨some "message", some "bob", some "alice", "p"⟩

/-- An envelope alice targets at herself. -/
def targetedSelfEnv : Envelope := ⟨some "message", some "alice", some "alice", "p"⟩

/-- A broadcast envelope with no `"to"` and no `"from"` key. -/
def broadcastEnv : Envelope := ⟨some "message", none, none, "hi"⟩

/-! ### Claims -/

/-- C1, counterexample: the claim says no operation may leave a room with
zero members in the registry, but the REST `create_room` endpoint
(`rooms.setdefault(room_id, {})`, lines 38-44) inserts an empty room into
the initial (trivially reachable) registry, and it persists. -/
theorem C1_create_room_empty_counterexample :
    noEmptyRoom (create_room [] "ab12cd34ef56") = false := by decide

/-- C1 (amended): the WebSocket-side transitions do maintain the invariant —
a join never leaves an empty room (a freshly created room receives its first
member in the same critical section, and a cap rejection leaves the registry
unchanged), and cleanup deletes the room it empties in the same critical
section (text/binary forwarding never mutates the registry at all).  Only the
REST `create_room` endpoint violates it by inserting an empty room. -/
theorem C1_no_empty_room_amended (rooms : Registry) (rid uid : String) (ws : WS)
    (h : noEmptyRoom rooms = true) :
    noEmptyRoom (wsJoin rooms rid uid ws).1 = true ∧
    noEmptyRoom (wsCleanup rooms rid uid ws).1 = true :=
  ⟨noEmptyRoom_wsJoin rooms rid uid ws h, noEmptyRoom_wsCleanup rooms rid uid ws h⟩

/-- C1, witness at a concrete two-member registry. -/
theorem C1_no_empty_room_amended_witness :
    noEmptyRoom exRooms = true ∧
    (noEmptyRoom (wsJoin exRooms "ABC123" "alice" 1).1 = true ∧
     noEmptyRoom (wsCleanup exRooms "ABC123" "alice" 1).1 = true) :=
  ⟨by decide, C1_no_empty_room_amended exRooms "ABC123" "alice" 1 (by decide)⟩

/-- C2, counterexample: the claim says the delivered `"from"` always equals
the sender's user id, but line 100 uses `setdefault`, so a client-supplied
`"from"` (here `"mallory"`, sender `"alice"`) is forwarded untouched. -/
theorem C2_from_spoof_counterexample :
    textDeliveries (handleText exRooms "ABC123" "alice" (some spoofEnv)) =
      [(2, spoofEnv)] ∧ spoofEnv.efrom ≠ some "alice" := by decide

/-- C2 (amended): the delivered `"from"` field is the client-supplied value
when present, and the sender's user id only when the client omitted it
(`data.setdefault("from", user_id)`). -/
theorem C2_from_setdefault_amended (rooms : Registry) (rid uid : String)
    (data : Envelope) :
    ∀ x ∈ textDeliveries (handleText rooms rid uid (some data)),
      x.2.efrom = some (data.efrom.getD uid) := by
  intro x hx
  have hx' : x ∈ textDeliveries (forward_text rooms uid
      ((attachSender uid data).eto.getD "all") rid (attachSender uid data)) := hx
  have h₂ := forward_text_env rooms uid
      ((attachSender uid data).eto.getD "all") rid (attachSender uid data) x hx'
  rw [h₂]
  rfl

/-- C2, witness: the concrete spoofed delivery instantiates the amended
statement. -/
theorem C2_from_setdefault_amended_witness :
    (2, spoofEnv) ∈ textDeliveries (handleText exRooms "ABC123" "alice" (some spoofEnv)) ∧
    (2, spoofEnv).2.efrom = some (spoofEnv.efrom.getD "alice") :=
  ⟨by decide,
    C2_from_setdefault_amended exRooms "ABC123" "alice" spoofEnv (2, spoofEnv) (by decide)⟩

/-- C3, counterexample: the claim says remaining members are sent a
`peer_left` notification, but when alice leaves `ABC123` the remaining
member bob (handle 2) stays registered and the cleanup trace contains no
text send at all. -/
theorem C3_no_peer_left_counterexample :
    (wsCleanup exRooms "ABC123" "alice" 1).1 = [("ABC123", [("bob", 2)])] ∧
    (wsCleanup exRooms "ABC123" "alice" 1).2.filter isSendTextB = [] := by decide

/-- C3 (amended): leaving sends no notification to anyone: the cleanup
block's only events are taking and releasing the lock and closing the
leaver's own connection; no `peer_left` (or any) envelope is sent to the
remaining members. -/
theorem C3_cleanup_sends_nothing_amended (rooms : Registry) (rid uid : String)
    (ws : WS) :
    (wsCleanup rooms rid uid ws).2 =
      [Event.acquire, Event.release, Event.close ws 1000] := rfl


/-- C4, counterexample: the claim says no send or close ever happens while
`rooms_lock` is held, but the target-not-found error reply (lines 169-177)
is sent inside the critical section, and the room-full rejection close
(line 80) also runs inside it. -/
theorem C4_io_under_lock_counterexample :
    underLock (forward_text aliceOnly "alice" "bob" "ABC123" targetedEnv) =
      [Event.sendText 1 (OutMsg.err "target bob not found")] ∧
    underLock (wsJoin fullRoomReg "R" "kate" 99).2.1 = [Event.close 99 1008] := by
  decide

/-- C4 (amended): forwarded deliveries (text and binary) always happen after
the lock is released, from a snapshot taken under it, and cleanup's close is
outside the lock; the only I/O performed while the lock is held is the
target-not-found error reply to the sender in `forward_text` and the
room-full rejection close in the join block. -/
theorem C4_io_under_lock_amended (rooms : Registry) (rid uid tgt : String)
    (data : Envelope) (ws : WS) (n : Nat) :
    (underLock (forward_text rooms uid tgt rid data)).all isErrSendB = true ∧
    (underLock (wsJoin rooms rid uid ws).2.1).all isCloseB = true ∧
    underLock (forward_binary rooms uid rid n) = [] ∧
    underLock (wsCleanup rooms rid uid ws).2 = [] := by
  refine ⟨?_, ?_, ?_, ?_⟩
  · cases hR : dlookup rid rooms with
    | none => simp [forward_text, hR, underLock, heldEvents]
    | some room =>
      by_cases ht : tgt = "all"
      · simp only [forward_text, hR, if_pos ht, underLock, List.cons_append,
          List.nil_append, heldEvents]
        rw [heldEvents_false_of_no_acquire]
        · rfl
        · simp [List.mem_map]
      · cases hT : dlookup tgt room with
        | some w =>
          simp [forward_text, hR, ht, hT, underLock, heldEvents]
        | none =>
          cases hU : dlookup uid room with
          | some s =>
            simp [forward_text, hR, ht, hT, hU, underLock, heldEvents, isErrSendB]
          | none =>
            simp [forward_text, hR, ht, hT, hU, underLock, heldEvents]
  · cases hR : dlookup rid rooms with
    | none =>
      have hl : dlookup rid (dinsert rid ([] : Room) rooms) = some [] :=
        dlookup_dinsert_self _ _ _
      simp only [wsJoin, hR, hl, Option.getD_some, List.length_nil,
        MAX_PARTICIPANTS_PER_ROOM]
      simp only [show ¬ (0 ≥ 10) by decide, if_false]
      rfl
    | some R =>
      by_cases hlen : R.length ≥ MAX_PARTICIPANTS_PER_ROOM
      · simp [wsJoin, hR, hlen, underLock, heldEvents, isCloseB]
      · simp [wsJoin, hR, hlen, underLock, heldEvents]
  · cases hR : dlookup rid rooms with
    | none => simp [forward_binary, hR, underLock, heldEvents]
    | some room =>
      simp only [forward_binary, hR, underLock, List.cons_append,
        List.nil_append, heldEvents]
      rw [heldEvents_false_of_no_acquire]
      simp [List.mem_map]
  · rfl

/-- C5: for a targeted envelope (`to` naming a participant, not `"all"`):
when the target is a member the envelope is delivered to exactly that
member's connection and no error is sent; when the target is absent nothing
is forwarded and the sender (a member) receives an error envelope whose
message names the missing target. -/
theorem C5_targeted_delivery (rooms : Registry) (rid uid tgt : String)
    (data : Envelope) (R : Room) (hR : dlookup rid rooms = some R)
    (hne : tgt ≠ "all") :
    (∀ w, dlookup tgt R = some w →
        textDeliveries (forward_text rooms uid tgt rid data) = [(w, data)] ∧
        errSends (forward_text rooms uid tgt rid data) = []) ∧
    (dlookup tgt R = none →
        textDeliveries (forward_text rooms uid tgt rid data) = [] ∧
        ∀ hs, dlookup uid R = some hs →
          errSends (forward_text rooms uid tgt rid data) =
            [(hs, "target " ++ tgt ++ " not found")]) := by
  constructor
  · intro w hw
    constructor <;> simp [forward_text, hR, hne, hw, textDeliveries, errSends]
  · intro habs
    constructor
    · cases hU : dlookup uid R with
      | none => simp [forward_text, hR, hne, habs, hU, textDeliveries]
      | some s => simp [forward_text, hR, hne, habs, hU, textDeliveries]
    · intro hs hhs
      simp [forward_text, hR, hne, habs, hhs, errSends]

/-- C5, witness: the spec's concrete scenario — room `ABC123` holds only
alice; alice targets bob; nothing is delivered and alice receives
`target bob not found`. -/
theorem C5_targeted_delivery_witness :
    dlookup "ABC123" aliceOnly = some [("alice", 1)] ∧
    ("bob" : String) ≠ "all" ∧
    (textDeliveries (forward_text aliceOnly "alice" "bob" "ABC123" targetedEnv) = [] ∧
     errSends (forward_text aliceOnly "alice" "bob" "ABC123" targetedEnv) =
       [(1, "target " ++ "bob" ++ " not found")]) := by
  refine ⟨by decide, by decide, ?_, ?_⟩
  · exact ((C5_targeted_delivery aliceOnly "ABC123" "alice" "bob" targetedEnv
      [("alice", 1)] (by decide) (by decide)).2 (by decide)).1
  · exact ((C5_targeted_delivery aliceOnly "ABC123" "alice" "bob" targetedEnv
      [("alice", 1)] (by decide) (by decide)).2 (by decide)).2 1 (by decide)

/-- C6: an envelope whose `to` is `"all"` or absent is delivered to exactly
the members of the sender's room other than the sender (with the
`setdefault`-adjusted envelope), and every delivery goes to a member whose
user id differs from the sender's — never back to the sender. -/
theorem C6_broadcast_excludes_sender (rooms : Registry) (rid uid : String)
    (data : Envelope) (R : Room) (hR : dlookup rid rooms = some R)
    (hto : data.eto.getD "all" = "all") :
    textDeliveries (handleText rooms rid uid (some data)) =
      (R.filter (fun p => p.1 ≠ uid)).map (fun p => (p.2, attachSender uid data)) ∧
    ∀ x ∈ textDeliveries (handleText rooms rid uid (some data)),
      ∃ p ∈ R, p.1 ≠ uid ∧ x.1 = p.2 := by
  have heto : (attachSender uid data).eto.getD "all" = "all" := hto
  have heq : textDeliveries (handleText rooms rid uid (some data)) =
      (R.filter (fun p => p.1 ≠ uid)).map (fun p => (p.2, attachSender uid data)) := by
    show textDeliveries (forward_text rooms uid
        ((attachSender uid data).eto.getD "all") rid (attachSender uid data)) = _
    rw [heto]
    simp [forward_text, hR, textDeliveries, textDeliveries_map_sendFwd]
  refine ⟨heq, ?_⟩
  intro x hx
  rw [heq, List.mem_map] at hx
  obtain ⟨p, hp, hpx⟩ := hx
  rw [List.mem_filter] at hp
  exact ⟨p, hp.1, by simpa using hp.2, by rw [← hpx]⟩

/-- C6, witness: the spec's concrete scenario — alice broadcasts (no `to`
key) in `ABC123` with members alice and bob; bob alone receives it, with
`from` stamped `alice`. -/
theorem C6_broadcast_excludes_sender_witness :
    dlookup "ABC123" exRooms = some [("alice", 1), ("bob", 2)] ∧
    broadcastEnv.eto.getD "all" = "all" ∧
    textDeliveries (handleText exRooms "ABC123" "alice" (some broadcastEnv)) =
      (([("alice", 1), ("bob", 2)] : Room).filter (fun p => p.1 ≠ "alice")).map
        (fun p => (p.2, attachSender "alice" broadcastEnv)) :=
  ⟨by decide, by decide,
    (C6_broadcast_excludes_sender exRooms "ABC123" "alice" broadcastEnv
      [("alice", 1), ("bob", 2)] (by decide) (by decide)).1⟩

/-- C7: a join attempt on a room whose member count has reached
`MAX_PARTICIPANTS_PER_ROOM` is rejected by closing the connection with code
1008, the registry is left unchanged (the connection is never registered and
the member count is untouched), and the session reports not joined. -/
theorem C7_room_full_rejected (rooms : Registry) (rid uid : String) (ws : WS)
    (R : Room) (hR : dlookup rid rooms = some R)
    (hfull : R.length ≥ MAX_PARTICIPANTS_PER_ROOM) :
    wsJoin rooms rid uid ws =
      (rooms, [Event.acquire, Event.close ws 1008, Event.release], false) := by
  simp [wsJoin, hR, hfull]

/-- C7, witness: an eleventh join on a full room is rejected. -/
theorem C7_room_full_rejected_witness :
    dlookup "R" fullRoomReg = some fullRoom ∧
    fullRoom.length ≥ MAX_PARTICIPANTS_PER_ROOM ∧
    wsJoin fullRoomReg "R" "kate" 99 =
      (fullRoomReg, [Event.acquire, Event.close 99 1008, Event.release], false) :=
  ⟨by decide, by decide,
    C7_room_full_rejected fullRoomReg "R" "kate" 99 fullRoom (by decide) (by decide)⟩

/-- C8: a binary frame strictly larger than `MAX_BINARY_SIZE` is never
forwarded to any peer; the sender receives an error envelope and the session
loop continues with the connection open (the `true` component). -/
theorem C8_oversized_binary_dropped (rooms : Registry) (rid uid : String)
    (ws : WS) (n : Nat) (h : n > MAX_BINARY_SIZE) :
    handleBinary rooms rid uid ws n =
      ([Event.sendText ws (OutMsg.err "binary frame too large")], true) := by
  simp [handleBinary, h]

/-- C8, witness: a frame one byte over the cap is dropped with an error. -/
theorem C8_oversized_binary_dropped_witness :
    MAX_BINARY_SIZE + 1 > MAX_BINARY_SIZE ∧
    handleBinary exRooms "ABC123" "alice" 1 (MAX_BINARY_SIZE + 1) =
      ([Event.sendText 1 (OutMsg.err "binary frame too large")], true) :=
  ⟨Nat.lt_succ_self _,
    C8_oversized_binary_dropped exRooms "ABC123" "alice" 1 _ (Nat.lt_succ_self _)⟩

/-- C9: an envelope whose `to` equals the sender's own user id (a member of
the room) is delivered back to the sender itself — sender exclusion applies
only to the broadcast path. -/
theorem C9_self_targeted_delivery (rooms : Registry) (rid uid : String)
    (data : Envelope) (R : Room) (hs : WS) (hR : dlookup rid rooms = some R)
    (hself : dlookup uid R = some hs) (hne : uid ≠ "all") :
    textDeliveries (forward_text rooms uid uid rid data) = [(hs, data)] := by
  simp [forward_text, hR, hne, hself, textDeliveries]

/-- C9, witness: alice targets herself and receives her own envelope. -/
theorem C9_self_targeted_delivery_witness :
    dlookup "ABC123" exRooms = some [("alice", 1), ("bob", 2)] ∧
    dlookup "alice" [("alice", 1), ("bob", 2)] = some 1 ∧
    ("alice" : String) ≠ "all" ∧
    textDeliveries (forward_text exRooms "alice" "alice" "ABC123" targetedSelfEnv) =
      [(1, targetedSelfEnv)] :=
  ⟨by decide, by decide, by decide,
    C9_self_targeted_delivery exRooms "ABC123" "alice" targetedSelfEnv
      [("alice", 1), ("bob", 2)] 1 (by decide) (by decide) (by decide)⟩

/-- C10, counterexample: the claim says a duplicate-identifier join is never
rejected, but the cap check runs before the overwrite, so alice's re-join
into a room already holding ten members (herself included) is rejected and
her old handle stays registered. -/
theorem C10_full_room_rejoin_counterexample :
    (wsJoin fullRoomReg "R" "alice" 99).2.2 = false ∧
    dlookup "alice" ((dlookup "R" (wsJoin fullRoomReg "R" "alice" 99).1).getD []) =
      some 1 := by decide

/-- C10 (amended): provided the room is below the participant cap, a join
under a user id already present is not rejected: the existing entry's handle
is overwritten in place, the member count is unchanged, and the trace
(`acquire`/`release` only) contains no close of the replaced handle. -/
theorem C10_rejoin_overwrites_amended (rooms : Registry) (rid uid : String)
    (R : Room) (oldws ws : WS) (hR : dlookup rid rooms = some R)
    (hold : dlookup uid R = some oldws)
    (hlt : R.length < MAX_PARTICIPANTS_PER_ROOM) :
    wsJoin rooms rid uid ws =
      (dinsert rid (dinsert uid ws R) rooms, [Event.acquire, Event.release], true) ∧
    dlookup uid (dinsert uid ws R) = some ws ∧
    (dinsert uid ws R).length = R.length := by
  have hnot : ¬ (R.length ≥ MAX_PARTICIPANTS_PER_ROOM) := not_le.mpr hlt
  exact ⟨by simp [wsJoin, hR, hnot], dlookup_dinsert_self _ _ _,
    length_dinsert_of_lookup _ _ _ _ hold⟩

/-- C10, witness: alice re-joins `ABC123` with a fresh handle 7; her entry
is overwritten in place and the count stays 2. -/
theorem C10_rejoin_overwrites_amended_witness :
    dlookup "ABC123" exRooms = some [("alice", 1), ("bob", 2)] ∧
    dlookup "alice" [("alice", 1), ("bob", 2)] = some 1 ∧
    ([("alice", 1), ("bob", 2)] : Room).length < MAX_PARTICIPANTS_PER_ROOM ∧
    (wsJoin exRooms "ABC123" "alice" 7 =
      (dinsert "ABC123" (dinsert "alice" 7 [("alice", 1), ("bob", 2)]) exRooms,
       [Event.acquire, Event.release], true) ∧
     dlookup "alice" (dinsert "alice" 7 [("alice", 1), ("bob", 2)]) = some 7 ∧
     (dinsert "alice" 7 ([("alice", 1), ("bob", 2)] : Room)).length =
       ([("alice", 1), ("bob", 2)] : Room).length) :=
  ⟨by decide, by decide, by decide,
    C10_rejoin_overwrites_amended exRooms "ABC123" "alice"
      [("alice", 1), ("bob", 2)] 1 7 (by decide) (by decide) (by decide)⟩

end Signaling
